import Mathlib

/-!
Verification development for the ig-releaser repository (src/logic.py,
src/ui.py, src/cli.py): a shallow embedding of its repository-sync and
build-orchestration engine, followed by theorems checking the
natural-language specification against it.

External effects (filesystem, git subprocesses, HTTP probes, the JSON
library) are modelled by explicit inputs: a filesystem is a set of existing
paths, each external call result is an oracle input, and every observable
action is recorded as an event in a trace.  Presentation-only actions
(console prints, status-label text) are not traced, except where a print
carries the only report of a failure reason, in which case it appears as an
explicit event.
-/

namespace IgReleaser

/-! ### Python string primitives

Executable models of the Python string operations the sources use:
`s.split(sep)` for a one-character separator and `s.replace(old, new)`
(every non-overlapping occurrence, left to right). -/

/-- `s.split(sep)` on a character list: splitting an empty list yields one
empty group, as in Python. -/
def splitOnAux (sep : Char) : List Char → List (List Char)
  | [] => [[]]
  | c :: rest =>
    let r := splitOnAux sep rest
    if c = sep then [] :: r
    else
      match r with
      | [] => [[c]]
      | g :: gs => (c :: g) :: gs

/-- Python `s.split(sep)` for a one-character separator. -/
def pySplitChar (sep : Char) (s : String) : List String :=
  (splitOnAux sep s.data).map String.mk

/-- If `pat` is a front of `s`, return the remainder of `s`. -/
def stripPat : List Char → List Char → Option (List Char)
  | [], s => some s
  | _ :: _, [] => none
  | p :: ps, c :: cs => if p = c then stripPat ps cs else none

/-- Replace every non-overlapping occurrence of `pat` (left to right) by
`rep`.  Each step consumes at least one character, so fuel equal to the
input length is enough. -/
def replaceAllChars (pat rep : List Char) : Nat → List Char → List Char
  | _, [] => []
  | 0, s => s
  | fuel + 1, c :: cs =>
    match stripPat pat (c :: cs) with
    | some rest =>
      match pat with
      | [] => c :: replaceAllChars pat rep fuel cs
      | _ :: _ => rep ++ replaceAllChars pat rep fuel rest
    | none => c :: replaceAllChars pat rep fuel cs

/-- Python `s.replace(pat, rep)`. -/
def pyReplace (s pat rep : String) : String :=
  String.mk (replaceAllChars pat.data rep.data s.data.length s.data)

/-- `os.path.join` on two components (posix separator). -/
def pathJoin (a b : String) : String := a ++ "/" ++ b

/-- A filesystem, abstracted as the set of paths that exist
(`os.path.exists`). -/
structure FS where
  paths : List String
deriving Repr, DecidableEq

/-- `os.path.exists`. -/
def FS.mem (fs : FS) (p : String) : Bool := fs.paths.contains p

/-- `os.makedirs` and other path creation. -/
def FS.insert (fs : FS) (p : String) : FS := ⟨p :: fs.paths⟩

/-! ### JSON documents and `json.loads`

A model of the Python `json` library as far as the sources exercise it:
`json.loads` either yields a document or raises a decode error.  The
numeric grammar is restricted to integers and the string escapes to the
single-character ones; the manifest payloads the claims evaluate stay
inside this fragment. -/

/-- A parsed JSON document. -/
inductive Json
  | null
  | bool (b : Bool)
  | num (n : Int)
  | str (s : String)
  | arr (elems : List Json)
  | obj (members : List (String × Json))
deriving Repr

/-- Drop leading JSON whitespace. -/
def skipWs : List Char → List Char
  | c :: rest =>
    if c = ' ' ∨ c = '\t' ∨ c = '\n' ∨ c = '\r' then skipWs rest else c :: rest
  | [] => []

/-- Parse the body of a JSON string after its opening quote, returning the
content and the remainder after the closing quote. -/
def parseStringBody : List Char → Except String (List Char × List Char)
  | [] => .error "unterminated string"
  | '"' :: rest => .ok ([], rest)
  | '\\' :: e :: rest =>
    match (match e with
      | '"' => some '"'
      | '\\' => some '\\'
      | '/' => some '/'
      | 'n' => some '\n'
      | 't' => some '\t'
      | 'r' => some '\r'
      | _ => none) with
    | some c => (parseStringBody rest).map (fun p => (c :: p.1, p.2))
    | none => .error "invalid escape"
  | '\\' :: [] => .error "unterminated string"
  | c :: rest => (parseStringBody rest).map (fun p => (c :: p.1, p.2))

/-- Take the leading run of decimal digits. -/
def takeDigits : List Char → List Char × List Char
  | c :: rest =>
    if c.isDigit then
      let p := takeDigits rest
      (c :: p.1, p.2)
    else ([], c :: rest)
  | [] => ([], [])

/-- Decimal digits to a natural number. -/
def digitsToNat (ds : List Char) : Nat :=
  ds.foldl (fun n c => 10 * n + (c.toNat - 48)) 0

mutual

/-- Parse one JSON value. -/
def parseValue : Nat → List Char → Except String (Json × List Char)
  | 0, _ => .error "document too deep"
  | fuel + 1, cs =>
    match skipWs cs with
    | [] => .error "expecting value"
    | c :: rest =>
      if c = '\x7b' then
        parseMembers fuel rest true
      else if c = '[' then
        parseElems fuel rest true
      else if c = '"' then
        (parseStringBody rest).map (fun p => (.str (String.mk p.1), p.2))
      else if c = 't' then
        match rest with
        | 'r' :: 'u' :: 'e' :: rest2 => .ok (.bool true, rest2)
        | _ => .error "expecting value"
      else if c = 'f' then
        match rest with
        | 'a' :: 'l' :: 's' :: 'e' :: rest2 => .ok (.bool false, rest2)
        | _ => .error "expecting value"
      else if c = 'n' then
        match rest with
        | 'u' :: 'l' :: 'l' :: rest2 => .ok (.null, rest2)
        | _ => .error "expecting value"
      else if c = '-' then
        match takeDigits rest with
        | ([], _) => .error "expecting value"
        | (ds, rest2) => .ok (.num (-(digitsToNat ds : Int)), rest2)
      else if c.isDigit then
        match takeDigits (c :: rest) with
        | (ds, rest2) => .ok (.num (digitsToNat ds), rest2)
      else .error "expecting value"

/-- Parse the members of an object after its opening brace (`first` marks
that no member has been consumed yet, so a closing brace is allowed). -/
def parseMembers : Nat → List Char → Bool → Except String (Json × List Char)
  | 0, _, _ => .error "document too deep"
  | fuel + 1, cs, first =>
    match skipWs cs with
    | '\x7d' :: rest =>
      if first then .ok (.obj [], rest) else .error "expecting member"
    | '"' :: rest =>
      match parseStringBody rest with
      | .error e => .error e
      | .ok (key, rest2) =>
        match skipWs rest2 with
        | ':' :: rest3 =>
          match parseValue fuel rest3 with
          | .error e => .error e
          | .ok (v, rest4) =>
            match skipWs rest4 with
            | ',' :: rest5 =>
              match parseMembers fuel rest5 false with
              | .ok (.obj ms, rest6) => .ok (.obj ((String.mk key, v) :: ms), rest6)
              | .ok _ => .error "impossible"
              | .error e => .error e
            | '\x7d' :: rest5 => .ok (.obj [(String.mk key, v)], rest5)
            | _ => .error "expecting comma or end of object"
        | _ => .error "expecting colon"
    | _ => .error "expecting property name"

/-- Parse the elements of an array after its opening bracket. -/
def parseElems : Nat → List Char → Bool → Except String (Json × List Char)
  | 0, _, _ => .error "document too deep"
  | fuel + 1, cs, first =>
    match skipWs cs with
    | ']' :: rest =>
      if first then .ok (.arr [], rest) else .error "expecting element"
    | cs2 =>
      match parseValue fuel cs2 with
      | .error e => .error e
      | .ok (v, rest) =>
        match skipWs rest with
        | ',' :: rest2 =>
          match parseElems fuel rest2 false with
          | .ok (.arr es, rest3) => .ok (.arr (v :: es), rest3)
          | .ok _ => .error "impossible"
          | .error e => .error e
        | ']' :: rest2 => .ok (.arr [v], rest2)
        | _ => .error "expecting comma or end of array"

end

/-- Python `json.loads`: parse one value and require only whitespace
behind it. -/
def json_loads (s : String) : Except String Json :=
  match parseValue (2 * s.data.length + 2) s.data with
  | .error e => .error e
  | .ok (v, rest) =>
    match skipWs rest with
    | [] => .ok v
    | _ => .error "extra data"

/-! ### logic.fetch_or_update_repo (src/logic.py lines 21-54) -/

/-- Oracle for the external git effects inside `fetch_or_update_repo`:
whether `git.Repo(dest_folder)` opens without raising, whether the
`git fetch --all` subprocess finishes within `timeout` seconds
(`fetch_process.wait(timeout=timeout)` not raising `TimeoutExpired`), and
whether `git.Repo.clone_from` succeeds. -/
structure FetchEnv where
  repoOpenOk : Bool
  fetchInTime : Bool
  cloneOk : Bool
deriving Repr, DecidableEq

/-- Observable actions of `fetch_or_update_repo`.  `printTimeout` is the
diagnostic print naming the timeout as the failure reason; `printError` is
the generic exception print of the `except` branch. -/
inductive FEvent
  | makedirs (p : String)
  | popenFetch (dest : String)
  | killFetch
  | printTimeout
  | cloneFrom (url dest : String)
  | printError
deriving Repr, DecidableEq

/-- src/logic.py lines 21-54.  The destination folder is created first when
absent; then, if `dest_folder/.git` exists, a `git fetch --all` subprocess
runs bounded by `timeout` (killed on `TimeoutExpired`, returning `False`);
otherwise the repository is cloned.  All other exceptions are caught and
yield `False`.  Returns (result, final filesystem, event trace). -/
def fetch_or_update_repo (repo_url dest_folder : String) (timeout : Nat)
    (fs : FS) (env : FetchEnv) : Bool × FS × List FEvent :=
  let made := fs.mem dest_folder
  let fs1 := if made then fs else fs.insert dest_folder
  let pre : List FEvent := if made then [] else [.makedirs dest_folder]
  let _ := timeout
  let _ := repo_url
  if fs1.mem (pathJoin dest_folder ".git") then
    if env.repoOpenOk then
      if env.fetchInTime then
        (true, fs1, pre ++ [.popenFetch dest_folder])
      else
        (false, fs1, pre ++ [.popenFetch dest_folder, .killFetch, .printTimeout])
    else
      (false, fs1, pre ++ [.printError])
  else
    if env.cloneOk then
      (true, fs1.insert (pathJoin dest_folder ".git"),
        pre ++ [.cloneFrom repo_url dest_folder])
    else
      (false, fs1, pre ++ [.cloneFrom repo_url dest_folder, .printError])

/-- Is this event the directory creation step? -/
def isMakedirs : FEvent → Bool
  | .makedirs _ => true
  | _ => false

/-- All `makedirs` events occur before every version-control event: after
the leading run of `makedirs` events no further one occurs. -/
def onlyLeadingMakedirs (evs : List FEvent) : Bool :=
  (evs.dropWhile isMakedirs).all (fun e => !(isMakedirs e))

/-! ### logic.get_git_branches (src/logic.py lines 56-68) -/

/-- Sequence a list of optional results; `none` as soon as one element
fails, modelling an exception aborting a Python list comprehension. -/
def mapOption (f : α → Option β) : List α → Option (List β)
  | [] => some []
  | a :: l =>
    match f a, mapOption f l with
    | some b, some bs => some (b :: bs)
    | _, _ => none

/-- `line.split("\t")[1].replace(pat, "")`: `none` models the IndexError
raised when the line has no tab. -/
def parseRefLine (pat : String) (line : String) : Option String :=
  ((pySplitChar '\t' line).get? 1).map (fun r => pyReplace r pat "")

/-- src/logic.py lines 56-68.  Inputs are the outcomes of the two
`ls_remote` calls (`--heads` then `--tags`), each either an error (a
network or git failure raising an exception) or the raw output lines.  Any
exception — from either remote listing or from parsing a malformed line —
is caught and yields the empty list. -/
def get_git_branches (heads tags : Except String (List String)) : List String :=
  match heads with
  | .error _ => []
  | .ok hlines =>
    match mapOption (parseRefLine "refs/heads/") hlines with
    | none => []
    | some branch_list =>
      match tags with
      | .error _ => []
      | .ok tlines =>
        match mapOption (parseRefLine "refs/tags/") tlines with
        | none => []
        | some tag_list => branch_list ++ tag_list

/-- Result shape the spec ascribes to `listRemoteRefs`: either the ref
list or a distinguishable failure value.

Modelled from the spec: "`listRemoteRefs(remoteURL) -> RefList |
SyncFailure`: performs a read-only remote ref listing ...; returns
branches then tags."  This sum type follows the words of the spec and is
compared against the source function `get_git_branches`, whose return type
is a plain list. -/
inductive RefsResult
  | refs (l : List String)
  | syncFailure (msg : String)
deriving Repr, DecidableEq

/-- Modelled from the spec: the behaviour the spec ascribes to
`listRemoteRefs` — on any failure of the remote listing a `SyncFailure`,
otherwise the branch names followed by the tag names in remote order. -/
def listRemoteRefsSpec (heads tags : Except String (List String)) : RefsResult :=
  match heads with
  | .error m => .syncFailure m
  | .ok hlines =>
    match mapOption (parseRefLine "refs/heads/") hlines with
    | none => .syncFailure "malformed ls-remote output"
    | some branch_list =>
      match tags with
      | .error m => .syncFailure m
      | .ok tlines =>
        match mapOption (parseRefLine "refs/tags/") tlines with
        | none => .syncFailure "malformed ls-remote output"
        | some tag_list => .refs (branch_list ++ tag_list)

/-! ### logic.load_publication_request (src/logic.py lines 81-92) -/

/-- Outcome of attempting to read a file: absent (`os.path.exists` false),
present but raising on read, or its content. -/
inductive FileRead
  | absent
  | unreadable (err : String)
  | readable (content : String)
deriving Repr, DecidableEq

/-- src/logic.py lines 81-92.  Reads `publication-request.json` under the
repository path; returns the literal empty-object text when the file is
absent or reading raises. -/
def load_publication_request (repo_path : String)
    (readFile : String → FileRead) : String :=
  match readFile (pathJoin repo_path "publication-request.json") with
  | .readable s => s
  | .unreadable _ => "\x7b\x7d"
  | .absent => "\x7b\x7d"

/-- src/cli.py lines 34-41: load the publication request, then try
`json.loads` on it; the success print corresponds to `true`. -/
def validate_json (repo_path : String) (readFile : String → FileRead) : Bool :=
  match json_loads (load_publication_request repo_path readFile) with
  | .ok _ => true
  | .error _ => false

/-! ### logic.gh_pages_has_sitepreview (src/logic.py lines 96-107) -/

/-- src/logic.py lines 96-107.  Derives the raw gh-pages preview URL from
the last two `/`-separated segments of the repository URL and asks the
HTTP oracle (`requests.head`, redirects followed) for a status code; `none`
models a raised network error.  Any exception — including the IndexError
when the URL has fewer than two segments — is caught and yields `false`. -/
def gh_pages_has_sitepreview (repo_url : String)
    (head : String → Option Nat) : Bool :=
  match (pySplitChar '/' repo_url).reverse with
  | repoSeg :: userSeg :: _ =>
    let repo_name := pyReplace repoSeg ".git" ""
    let url := "https://raw.githubusercontent.com/" ++ userSeg ++ "/" ++
      repo_name ++ "/gh-pages/sitepreview/index.html"
    match head url with
    | some code => code == 200
    | none => false
  | _ => false

/-! ### logic.deploy_prebuilt and logic.deploy_built
(src/logic.py lines 126-153) -/

/-- The modules imported at the top of src/logic.py (lines 1-7).  Python
resolves a bare name such as `shutil` against this module namespace; a
name not present raises `NameError`. -/
def logicImports : List String :=
  ["git", "os", "yaml", "json", "requests", "time", "subprocess"]

/-- Observable actions of the two deploy operations. -/
inductive DEvent
  | copytree (src dst : String)
  | gitAddAll
  | commit (msg : String)
  | createHead (branch : String)
  | push (remote branch : String)
deriving Repr, DecidableEq

/-- src/logic.py lines 134-153.  Requires the `sitepreview` folder under
the synced IG source; returns `False` (printing the no-artifact message)
when it is absent.  When it is present, the next statement evaluates
`shutil.copytree`, and the name `shutil` is resolved against
`logicImports`: since `shutil` is never imported in src/logic.py this
raises `NameError`, which `deploy_prebuilt` does not catch, so the call
aborts (`.error`) before any copy, commit, branch creation or push.  The
final branch is the continuation for a module namespace in which the name
does resolve. -/
def deploy_prebuilt (current_web_content work_folder : String)
    (fs : FS) : Except String Bool × FS × List DEvent :=
  let sitepreview_path :=
    pathJoin (pathJoin work_folder "New_IG_Source") "sitepreview"
  if !(fs.mem sitepreview_path) then
    (.ok false, fs, [])
  else if !(logicImports.contains "shutil") then
    (.error "NameError: name shutil is not defined", fs, [])
  else
    (.ok true, fs,
      [.copytree sitepreview_path current_web_content,
       .gitAddAll, .commit "🚀 Deploying Pre-Built IG",
       .createHead "new", .push "origin" "new"])

/-- src/logic.py lines 126-132: stage all, commit, push the primary
branch. -/
def deploy_built (current_web_content : String) (fs : FS) :
    FS × List DEvent :=
  let _ := current_web_content
  (fs, [.gitAddAll, .commit "🚀 Deploying Built IG", .push "origin" "main"])

/-! ### The UI orchestration (src/ui.py)

`IGReleaseApp.build_ig` and its collaborators, embedded as trace-producing
functions.  An event records each observable action; console logging and
status-label text are omitted. -/

/-- Observable actions of the build orchestration. -/
inductive UEvent
  | progress (n : Nat)
  | fetchRepo (name url dest : String)
  | ghFetchAll (dest : String)
  | ghCheckout (branch : String)
  | ghClone (url dest branch : String)
  | showDeployPrebuilt
  | downloadPublisherJar
  | validateJson
  | runPublisher (cmd : String)
  | showDeployBuilt
deriving Repr, DecidableEq

/-- src/logic.py lines 109-124, `download_gh_pages`: if the destination
already holds a git checkout, fetch all refs and check out `gh-pages`;
otherwise clone the `gh-pages` branch.  Exceptions are caught and only
printed, so only the filesystem effect of a successful clone is kept. -/
def download_gh_pages (repo_url work_folder : String) (fs : FS)
    (cloneOk : Bool) : List UEvent × FS :=
  let dest_folder := pathJoin work_folder "New_IG_Source"
  if fs.mem (pathJoin dest_folder ".git") then
    ([.ghFetchAll dest_folder, .ghCheckout "gh-pages"], fs)
  else if cloneOk then
    ([.ghClone repo_url dest_folder "gh-pages"],
      fs.insert (pathJoin dest_folder ".git"))
  else
    ([.ghClone repo_url dest_folder "gh-pages"], fs)

/-- Modelled from the spec: `logic.download_publisher_jar` is called by
`build_ig` (src/ui.py line 134) but no definition exists anywhere under
src/.  Per the spec it "downloads the external publisher tool artifact (a
versioned external dependency fetch, treated as an opaque external
collaborator) before validating", so it is modelled as an opaque download
step that emits a single event. -/
def download_publisher_jar : List UEvent := [.downloadPublisherJar]

/-- src/ui.py line 158: the fixed local path of the publisher tool. -/
def publisher_path : String := "./publisher.jar"

/-- src/ui.py line 160: the content-generation command. -/
def publisher_cmd1 (source : String) : String :=
  "java -Xmx4g -jar " ++ publisher_path ++ " publisher -ig " ++ source

/-- src/ui.py lines 161-164: the publish/staging command. -/
def publisher_cmd2 (source work_folder : String) : String :=
  "java -Xmx4g -jar " ++ publisher_path ++ " -go-publish -source " ++ source ++
  " -web " ++ work_folder ++ "/Current_Web_Content -temp " ++ work_folder ++
  "/Work_Folder -registry " ++ work_folder ++
  "/IG_Registry/fhir-ig-list.json -history " ++ work_folder ++
  "/History_Template -templates " ++ work_folder ++
  "/Current_Web_Content/templates"

/-- src/ui.py lines 156-173, `run_publisher`: run the two publisher
commands in order, stopping after the first nonzero exit code.  The exit
codes are oracle inputs. -/
def run_publisher (source work_folder : String) (exit1 exit2 : Int) :
    List UEvent × Bool :=
  if exit1 ≠ 0 then
    ([.runPublisher (publisher_cmd1 source)], false)
  else if exit2 ≠ 0 then
    ([.runPublisher (publisher_cmd1 source),
      .runPublisher (publisher_cmd2 source work_folder)], false)
  else
    ([.runPublisher (publisher_cmd1 source),
      .runPublisher (publisher_cmd2 source work_folder)], true)

/-- `name.replace(" ", "_")` from src/ui.py line 249. -/
def sanitizeRepoName (n : String) : String := pyReplace n " " "_"

/-- `int((completed / total_repos) * 100)` from src/ui.py line 261: for
the denominators that occur, float truncation agrees with natural
division. -/
def fetchProgress (completed total : Nat) : Nat := completed * 100 / total

/-- The keys of `repo_fields` other than the work folder (src/ui.py lines
49-54 give the insertion order; line 240 excludes "Work Folder"). -/
def otherRepoNames : List String :=
  ["History Template", "IG Registry", "Current Web Content"]

/-- The loop body of `fetch_repos` inside `fetch_all_repos` (src/ui.py
lines 243-261): fetch each repository and report progress as
completed-count over total-count. -/
def fetchLoop (urls : String → String) (work_folder : String) (total : Nat) :
    List String → Nat → List UEvent
  | [], _ => []
  | n :: rest, completed =>
    .fetchRepo n (urls n) (pathJoin work_folder (sanitizeRepoName n)) ::
    .progress (fetchProgress (completed + 1) total) ::
    fetchLoop urls work_folder total rest (completed + 1)

/-- src/ui.py lines 236-266, `fetch_all_repos`: the trace of the
background thread body.  `urls` maps a repository field name to the URL
typed in it. -/
def fetch_all_repos_trace (urls : String → String) (work_folder : String) :
    List UEvent :=
  fetchLoop urls work_folder otherRepoNames.length otherRepoNames 0

/-- Terminal state of one `build_ig` run. -/
inductive Outcome
  | prebuiltDeployReady
  | validationFailed
  | buildFailed
  | builtDeployReady
deriving Repr, DecidableEq

/-- Oracle inputs for one `build_ig` run: the HTTP probe, the filesystem
seen by `download_gh_pages`, whether the gh-pages clone succeeds, the
result of the JSON validation dialog, and the two publisher exit codes. -/
structure UIEnv where
  head : String → Option Nat
  fs : FS
  ghCloneOk : Bool
  jsonValid : Bool
  exit1 : Int
  exit2 : Int

/-- src/ui.py lines 124-154: the part of `build_ig` that runs on the main
thread after the fetch thread has been spawned — probe for a prebuilt
artifact; on success fetch the preview branch, reveal the prebuilt deploy
button and stop; otherwise download the publisher jar, validate the
manifest and run the two publisher commands. -/
def build_ig_main (work_folder ig_source : String) (env : UIEnv) :
    List UEvent × Outcome :=
  if gh_pages_has_sitepreview ig_source env.head then
    let gh := download_gh_pages ig_source work_folder env.fs env.ghCloneOk
    (gh.1 ++ [.showDeployPrebuilt, .progress 100], .prebuiltDeployReady)
  else
    let pre := download_publisher_jar ++ [.progress 20, .validateJson]
    if !env.jsonValid then
      (pre, .validationFailed)
    else
      let rp := run_publisher ig_source work_folder env.exit1 env.exit2
      if rp.2 then
        (pre ++ [.progress 30] ++ rp.1 ++ [.showDeployBuilt, .progress 100],
          .builtDeployReady)
      else
        (pre ++ [.progress 30] ++ rp.1, .buildFailed)

/-- Interleave two traces under a schedule: `true` takes the next event of
the first trace, `false` of the second; when either trace or the schedule
is exhausted the remainder runs to completion. -/
def interleave : List Bool → List α → List α → List α
  | [], xs, ys => xs ++ ys
  | true :: s, xs, ys =>
    match xs with
    | [] => ys
    | x :: xsr => x :: interleave s xsr ys
  | false :: s, xs, ys =>
    match ys with
    | [] => xs
    | y :: ysr => y :: interleave s xs ysr

/-- src/ui.py lines 114-154, `build_ig`: report progress 10, spawn the
fetch-all thread (whose events interleave with the rest of the run under
an arbitrary schedule), then continue with `build_ig_main`.  The
clean-folders checkbox is read (line 118) but never used afterwards, so it
does not appear.  Returns the full reported trace and the terminal
outcome. -/
def build_ig (work_folder ig_source : String) (urls : String → String)
    (env : UIEnv) (sched : List Bool) : List UEvent × Outcome :=
  let m := build_ig_main work_folder ig_source env
  (.progress 10 :: interleave sched m.1 (fetch_all_repos_trace urls work_folder),
    m.2)

/-! ### Trace observations -/

/-- The progress values of a trace, in reported order. -/
def progressValues (evs : List UEvent) : List Nat :=
  evs.filterMap (fun e =>
    match e with
    | .progress n => some n
    | _ => none)

/-- Is a list of naturals non-decreasing? -/
def isSorted : List Nat → Bool
  | [] => true
  | [_] => true
  | a :: b :: rest => decide (a ≤ b) && isSorted (b :: rest)

/-- Does this event invoke the external publisher tool? -/
def isRunPublisher : UEvent → Bool
  | .runPublisher _ => true
  | _ => false

/-- Does this event fetch the gh-pages preview branch? -/
def fetchesGhPages : UEvent → Bool
  | .ghCheckout b => b == "gh-pages"
  | .ghClone _ _ b => b == "gh-pages"
  | _ => false

/-- Does this event enable one of the two deploy paths? -/
def isDeployEnable : UEvent → Bool
  | .showDeployPrebuilt => true
  | .showDeployBuilt => true
  | _ => false

/-- Is this event one of the full-build orchestration steps (publisher
download, manifest validation, publisher invocation)? -/
def isOrchStep : UEvent → Bool
  | .downloadPublisherJar => true
  | .validateJson => true
  | .runPublisher _ => true
  | _ => false

/-- Is this an event the fetch-all thread can emit? -/
def isFetchThreadEvent : UEvent → Bool
  | .fetchRepo _ _ _ => true
  | .progress _ => true
  | _ => false

/-! ### Interleaving lemmas -/

theorem interleave_perm (s : List Bool) (xs ys : List α) :
    List.Perm (interleave s xs ys) (xs ++ ys) := by
  induction s generalizing xs ys with
  | nil => exact List.Perm.refl _
  | cons b s ih =>
    cases b with
    | true =>
      cases xs with
      | nil => simp [interleave]
      | cons x xsr => simpa [interleave] using (ih xsr ys).cons x
    | false =>
      cases ys with
      | nil => simp [interleave]
      | cons y ysr =>
        exact ((ih xs ysr).cons y).trans List.perm_middle.symm

theorem mem_interleave {x : α} {s : List Bool} {xs ys : List α}
    (h : x ∈ interleave s xs ys) : x ∈ xs ∨ x ∈ ys := by
  have := (interleave_perm s xs ys).mem_iff.mp h
  simpa using this

theorem interleave_mem_left {x : α} {s : List Bool} {xs ys : List α}
    (h : x ∈ xs) : x ∈ interleave s xs ys :=
  (interleave_perm s xs ys).mem_iff.mpr (List.mem_append_left _ h)

theorem countP_interleave (p : α → Bool) (s : List Bool) (xs ys : List α) :
    (interleave s xs ys).countP p = xs.countP p + ys.countP p := by
  rw [(interleave_perm s xs ys).countP_eq, List.countP_append]

theorem filter_interleave_of_right_none (p : α → Bool) (s : List Bool)
    (xs ys : List α) (h : ∀ y ∈ ys, p y = false) :
    (interleave s xs ys).filter p = xs.filter p := by
  induction s generalizing xs ys with
  | nil =>
    have hy : ys.filter p = [] := by
      refine List.filter_eq_nil_iff.mpr ?_
      intro a ha
      simp [h a ha]
    simp [interleave, List.filter_append, hy]
  | cons b s ih =>
    cases b with
    | true =>
      cases xs with
      | nil =>
        have hy : ys.filter p = [] := by
          refine List.filter_eq_nil_iff.mpr ?_
          intro a ha
          simp [h a ha]
        simp [interleave, hy]
      | cons x xsr =>
        simp only [interleave, List.filter_cons]
        rw [ih xsr ys h]
    | false =>
      cases ys with
      | nil => simp [interleave]
      | cons y ysr =>
        have hy : p y = false := h y (List.mem_cons_self y ysr)
        have hr : ∀ a ∈ ysr, p a = false := fun a ha => h a (List.mem_cons_of_mem y ha)
        simp only [interleave, List.filter_cons, hy]
        simpa using ih xs ysr hr

/-! ### Classification of the fetch-thread trace -/

theorem fetchLoop_events (urls : String → String) (work_folder : String)
    (total : Nat) :
    ∀ (l : List String) (completed : Nat),
      ∀ e ∈ fetchLoop urls work_folder total l completed,
        isFetchThreadEvent e = true := by
  intro l
  induction l with
  | nil =>
    intro completed e he
    simp [fetchLoop] at he
  | cons n rest ih =>
    intro completed e he
    simp only [fetchLoop, List.mem_cons] at he
    rcases he with h | h | h
    · subst h; rfl
    · subst h; rfl
    · exact ih (completed + 1) e h

theorem fetch_all_repos_trace_events (urls : String → String)
    (work_folder : String) :
    ∀ e ∈ fetch_all_repos_trace urls work_folder,
      isFetchThreadEvent e = true :=
  fetchLoop_events urls work_folder otherRepoNames.length otherRepoNames 0

theorem fetchThreadEvent_classifiers {e : UEvent}
    (h : isFetchThreadEvent e = true) :
    isOrchStep e = false ∧ isRunPublisher e = false ∧
      isDeployEnable e = false ∧ fetchesGhPages e = false := by
  cases e <;>
    simp_all [isFetchThreadEvent, isOrchStep, isRunPublisher, isDeployEnable,
      fetchesGhPages]

/-- The fetch thread reports exactly the progress values 33, 66, 100. -/
theorem fetch_all_repos_trace_progress (urls : String → String)
    (work_folder : String) :
    progressValues (fetch_all_repos_trace urls work_folder) = [33, 66, 100] := rfl

/-! ### Shape of the collaborator traces -/

theorem download_gh_pages_trace (url work_folder : String) (fs : FS)
    (cloneOk : Bool) :
    (download_gh_pages url work_folder fs cloneOk).1 =
        [.ghFetchAll (pathJoin work_folder "New_IG_Source"),
         .ghCheckout "gh-pages"] ∨
      (download_gh_pages url work_folder fs cloneOk).1 =
        [.ghClone url (pathJoin work_folder "New_IG_Source") "gh-pages"] := by
  unfold download_gh_pages
  by_cases h : fs.mem (pathJoin (pathJoin work_folder "New_IG_Source") ".git") <;>
    cases cloneOk <;> simp [h]

theorem run_publisher_trace (source work_folder : String) (exit1 exit2 : Int) :
    (run_publisher source work_folder exit1 exit2).1 =
        [.runPublisher (publisher_cmd1 source)] ∨
      (run_publisher source work_folder exit1 exit2).1 =
        [.runPublisher (publisher_cmd1 source),
         .runPublisher (publisher_cmd2 source work_folder)] := by
  unfold run_publisher
  by_cases h1 : exit1 ≠ 0 <;> by_cases h2 : exit2 ≠ 0 <;> simp [h1, h2]

/-! ### Claims -/

/-- C10: for every `fetch_or_update_repo` call, a missing destination
folder is created before any version-control operation (all `makedirs`
events precede every other event), and after every call that returns —
including those that return failure — the destination directory exists on
the resulting filesystem; when the folder was initially absent, a
`makedirs` event for it appears in the trace. -/
theorem fetch_or_update_repo_creates_dest (repo_url dest_folder : String)
    (timeout : Nat) (fs : FS) (env : FetchEnv) :
    ((fetch_or_update_repo repo_url dest_folder timeout fs env).2.1).mem
        dest_folder = true ∧
      onlyLeadingMakedirs
        ((fetch_or_update_repo repo_url dest_folder timeout fs env).2.2) =
          true ∧
      (fs.mem dest_folder = true ∨
        ((fetch_or_update_repo repo_url dest_folder timeout fs env).2.2).contains
          (.makedirs dest_folder) = true) := by
  obtain ⟨ro, ft, co⟩ := env
  by_cases hm : fs.mem dest_folder <;>
    by_cases hg : ((if fs.mem dest_folder then fs else fs.insert dest_folder)).mem
        (pathJoin dest_folder ".git") <;>
      cases ro <;> cases ft <;> cases co <;>
        simp_all [fetch_or_update_repo, onlyLeadingMakedirs, isMakedirs,
          FS.mem, FS.insert, List.dropWhile]

/-- C7: when the destination already holds version-control metadata and the
`git fetch --all` subprocess exceeds the timeout, the subprocess is killed
(a `killFetch` event follows the `popenFetch` event), the timeout is
reported, and the call returns failure instead of blocking. -/
theorem fetch_or_update_repo_timeout_kills (repo_url dest_folder : String)
    (timeout : Nat) (fs : FS) (env : FetchEnv)
    (hgit : ((if fs.mem dest_folder then fs else fs.insert dest_folder)).mem
      (pathJoin dest_folder ".git") = true)
    (hopen : env.repoOpenOk = true) (htime : env.fetchInTime = false) :
    (fetch_or_update_repo repo_url dest_folder timeout fs env).1 = false ∧
      (fetch_or_update_repo repo_url dest_folder timeout fs env).2.2 =
        (if fs.mem dest_folder then ([] : List FEvent)
          else [.makedirs dest_folder]) ++
          [.popenFetch dest_folder, .killFetch, .printTimeout] := by
  by_cases hm : fs.mem dest_folder <;>
    simp_all [fetch_or_update_repo]

/-- C7 witness: a concrete timed-out fetch on an existing checkout. -/
theorem fetch_or_update_repo_timeout_kills_witness :
    (((if FS.mem ⟨["/d", "/d/.git"]⟩ "/d" then (⟨["/d", "/d/.git"]⟩ : FS)
        else FS.insert ⟨["/d", "/d/.git"]⟩ "/d")).mem
          (pathJoin "/d" ".git") = true ∧
      FetchEnv.repoOpenOk ⟨true, false, true⟩ = true ∧
      FetchEnv.fetchInTime ⟨true, false, true⟩ = false) ∧
    ((fetch_or_update_repo "https://example.org/o/r" "/d" 60
        ⟨["/d", "/d/.git"]⟩ ⟨true, false, true⟩).1 = false ∧
      (fetch_or_update_repo "https://example.org/o/r" "/d" 60
        ⟨["/d", "/d/.git"]⟩ ⟨true, false, true⟩).2.2 =
        (if FS.mem ⟨["/d", "/d/.git"]⟩ "/d" then ([] : List FEvent)
          else [.makedirs "/d"]) ++
          [.popenFetch "/d", .killFetch, .printTimeout]) :=
  ⟨⟨by decide, rfl, rfl⟩,
    fetch_or_update_repo_timeout_kills "https://example.org/o/r" "/d" 60
      ⟨["/d", "/d/.git"]⟩ ⟨true, false, true⟩ (by decide) rfl rfl⟩

/-- C6: `deploy_prebuilt` without a `sitepreview` folder under the synced
IG source returns the no-artifact failure (`False`) and performs no copy,
no commit and no push: the trace is empty and the web-content filesystem
state is returned unchanged. -/
theorem deploy_prebuilt_no_artifact (current_web_content work_folder : String)
    (fs : FS)
    (h : fs.mem (pathJoin (pathJoin work_folder "New_IG_Source") "sitepreview") =
      false) :
    deploy_prebuilt current_web_content work_folder fs =
      (.ok false, fs, ([] : List DEvent)) := by
  unfold deploy_prebuilt
  simp [h]

/-- C6 witness: a concrete call with no `sitepreview` folder present. -/
theorem deploy_prebuilt_no_artifact_witness :
    FS.mem ⟨["/w/New_IG_Source"]⟩
        (pathJoin (pathJoin "/w" "New_IG_Source") "sitepreview") = false ∧
      deploy_prebuilt "/web" "/w" ⟨["/w/New_IG_Source"]⟩ =
        (.ok false, (⟨["/w/New_IG_Source"]⟩ : FS), ([] : List DEvent)) :=
  ⟨by decide,
    deploy_prebuilt_no_artifact "/web" "/w" ⟨["/w/New_IG_Source"]⟩ (by decide)⟩

/-- C2 (code bug): with the `sitepreview` folder present,
`deploy_prebuilt` does not copy, commit, branch and push as claimed —
src/logic.py line 143 evaluates `shutil.copytree` but `shutil` is never
imported in src/logic.py, so the call raises `NameError` before any copy
or git operation: the result is an error, the trace is empty and the
filesystem is unchanged. -/
theorem deploy_prebuilt_raises_name_error :
    deploy_prebuilt "/web" "/w" ⟨["/w/New_IG_Source/sitepreview"]⟩ =
      (.error "NameError: name shutil is not defined",
        (⟨["/w/New_IG_Source/sitepreview"]⟩ : FS), ([] : List DEvent)) := rfl

/-- C8: loading the publication request never fails — on a repository
whose manifest file is absent or unreadable it returns the empty-object
payload, that payload parses as the empty JSON object, and the CLI
validation of it succeeds. -/
theorem load_publication_request_never_fails (repo_path : String)
    (readFile : String → FileRead)
    (h : readFile (pathJoin repo_path "publication-request.json") =
          FileRead.absent ∨
        ∃ e, readFile (pathJoin repo_path "publication-request.json") =
          FileRead.unreadable e) :
    load_publication_request repo_path readFile = "\x7b\x7d" ∧
      json_loads (load_publication_request repo_path readFile) =
        .ok (Json.obj []) ∧
      validate_json repo_path readFile = true := by
  have hl : load_publication_request repo_path readFile = "\x7b\x7d" := by
    unfold load_publication_request
    rcases h with h | ⟨e, h⟩ <;> rw [h]
  refine ⟨hl, ?_, ?_⟩
  · rw [hl]
    rfl
  · unfold validate_json
    rw [hl]
    rfl

/-- C8 witness: a repository with no manifest file at all. -/
theorem load_publication_request_never_fails_witness :
    ((fun _ => FileRead.absent : String → FileRead)
        (pathJoin "/repo" "publication-request.json") = FileRead.absent ∨
      ∃ e, (fun _ => FileRead.absent : String → FileRead)
        (pathJoin "/repo" "publication-request.json") =
          FileRead.unreadable e) ∧
    (load_publication_request "/repo" (fun _ => FileRead.absent) = "\x7b\x7d" ∧
      json_loads (load_publication_request "/repo" (fun _ => FileRead.absent)) =
        .ok (Json.obj []) ∧
      validate_json "/repo" (fun _ => FileRead.absent) = true) :=
  ⟨Or.inl rfl,
    load_publication_request_never_fails "/repo" (fun _ => FileRead.absent)
      (Or.inl rfl)⟩

/-- C9 counterexample: `get_git_branches` cannot be returning "either the
ref list or a SyncFailure": a failing remote listing returns the plain
empty list, the very value a successful listing of an empty remote
returns, so no interpretation of its results can map failures to the
spec's `SyncFailure` variant. -/
theorem get_git_branches_no_failure_variant :
    ¬ ∃ interp : List String → RefsResult,
        ∀ heads tags, interp (get_git_branches heads tags) =
          listRemoteRefsSpec heads tags := by
  rintro ⟨interp, hi⟩
  have h1 : interp [] = RefsResult.syncFailure "fatal: unable to access remote" :=
    hi (.error "fatal: unable to access remote") (.ok [])
  have h2 : interp [] = RefsResult.refs [] := hi (.ok []) (.ok [])
  exact RefsResult.noConfusion (h1.symm.trans h2)

/-- C9 (amended): when both remote listings succeed and every line
parses, `get_git_branches` returns all branch names followed by all tag
names, in remote listing order with no de-duplication; when a remote
listing fails it returns the empty list (indistinguishable from an empty
ref list).  The embedding is a pure function of the listing results, so no
local state is mutated. -/
theorem get_git_branches_refs_order (hlines tlines branch_list tag_list : List String)
    (hb : mapOption (parseRefLine "refs/heads/") hlines = some branch_list)
    (ht : mapOption (parseRefLine "refs/tags/") tlines = some tag_list) :
    get_git_branches (.ok hlines) (.ok tlines) = branch_list ++ tag_list ∧
      (∀ msg tags, get_git_branches (.error msg) tags = []) ∧
      (∀ msg, get_git_branches (.ok hlines) (.error msg) = []) := by
  refine ⟨?_, fun msg tags => rfl, fun msg => ?_⟩
  · simp [get_git_branches, hb, ht]
  · simp [get_git_branches, hb]

/-- C9 witness: concrete listings with duplicate names, showing order
preservation and the absence of de-duplication. -/
theorem get_git_branches_refs_order_witness :
    (mapOption (parseRefLine "refs/heads/")
        ["aaa\trefs/heads/main", "bbb\trefs/heads/main", "ccc\trefs/heads/dev"] =
          some ["main", "main", "dev"] ∧
      mapOption (parseRefLine "refs/tags/")
        ["ddd\trefs/tags/v1", "eee\trefs/tags/v1"] = some ["v1", "v1"]) ∧
    (get_git_branches
        (.ok ["aaa\trefs/heads/main", "bbb\trefs/heads/main", "ccc\trefs/heads/dev"])
        (.ok ["ddd\trefs/tags/v1", "eee\trefs/tags/v1"]) =
          ["main", "main", "dev"] ++ ["v1", "v1"] ∧
      (∀ msg tags, get_git_branches (.error msg) tags = []) ∧
      (∀ msg, get_git_branches
        (.ok ["aaa\trefs/heads/main", "bbb\trefs/heads/main", "ccc\trefs/heads/dev"])
        (.error msg) = [])) :=
  ⟨⟨by decide, by decide⟩,
    get_git_branches_refs_order
      ["aaa\trefs/heads/main", "bbb\trefs/heads/main", "ccc\trefs/heads/dev"]
      ["ddd\trefs/tags/v1", "eee\trefs/tags/v1"]
      ["main", "main", "dev"] ["v1", "v1"] (by decide) (by decide)⟩

/-- Oracle for the C3 counterexample run: the artifact probe reports no
prebuilt artifact, the manifest validates and both publisher commands
succeed. -/
def c3Env : UIEnv :=
  ⟨fun _ => none, ⟨[]⟩, true, true, 0, 0⟩

/-- C3 counterexample: a run in which the background fetch thread finishes
before the main thread proceeds — a schedule the threading permits —
reports the progress sequence 10, 33, 66, 100, 20, 30, 100, which is not
monotonically non-decreasing. -/
theorem build_ig_progress_can_decrease :
    isSorted (progressValues
      (build_ig "/w" "https://github.com/o/r" (fun _ => "u") c3Env
        [false, false, false, false, false, false]).1) = false := by decide

/-- C3 (amended): the progress values reported by the main orchestration
thread of one run are monotonically non-decreasing (10, then 100 on the
prebuilt path, or 10, 20, then possibly 30 and 100 on the full-build
path), and the values reported by the background fetch thread are
monotonically non-decreasing on their own (33, 66, 100); the two
sequences interleave arbitrarily, so the combined reported sequence need
not be monotone. -/
theorem build_ig_progress_monotone_per_thread (work_folder ig_source : String)
    (urls : String → String) (env : UIEnv) :
    isSorted (progressValues
        (UEvent.progress 10 :: (build_ig_main work_folder ig_source env).1)) =
        true ∧
      isSorted (progressValues (fetch_all_repos_trace urls work_folder)) =
        true := by
  refine ⟨?_, by rw [fetch_all_repos_trace_progress]; decide⟩
  unfold build_ig_main
  rcases download_gh_pages_trace ig_source work_folder env.fs env.ghCloneOk
      with hd | hd <;>
    rcases run_publisher_trace ig_source work_folder env.exit1 env.exit2
        with hr | hr <;>
      by_cases h : gh_pages_has_sitepreview ig_source env.head <;>
        by_cases hj : env.jsonValid <;>
          by_cases hs : (run_publisher ig_source work_folder env.exit1 env.exit2).2 <;>
            simp [h, hj, hs, hd, hr, download_publisher_jar, progressValues,
              isSorted]

/-- C1: whenever the artifact probe on the IG source URL reports a
prebuilt artifact, `build_ig` ends in the prebuilt terminal success state,
its trace fetches the gh-pages preview branch, and no event of the run —
under any interleaving with the fetch thread — invokes the external
publisher tool. -/
theorem build_ig_prebuilt_path (work_folder ig_source : String)
    (urls : String → String) (env : UIEnv) (sched : List Bool)
    (h : gh_pages_has_sitepreview ig_source env.head = true) :
    (build_ig work_folder ig_source urls env sched).2 =
        Outcome.prebuiltDeployReady ∧
      (∃ e ∈ (build_ig work_folder ig_source urls env sched).1,
        fetchesGhPages e = true) ∧
      (∀ e ∈ (build_ig work_folder ig_source urls env sched).1,
        isRunPublisher e = false) := by
  have hmain : build_ig_main work_folder ig_source env =
      ((download_gh_pages ig_source work_folder env.fs env.ghCloneOk).1 ++
        [.showDeployPrebuilt, .progress 100], .prebuiltDeployReady) := by
    simp [build_ig_main, h]
  refine ⟨by simp [build_ig, hmain], ?_, ?_⟩
  · have hex : ∃ e ∈ (build_ig_main work_folder ig_source env).1,
        fetchesGhPages e = true := by
      rw [hmain]
      rcases download_gh_pages_trace ig_source work_folder env.fs env.ghCloneOk
          with hd | hd <;> rw [hd]
      · exact ⟨.ghCheckout "gh-pages", by simp, rfl⟩
      · exact ⟨.ghClone ig_source (pathJoin work_folder "New_IG_Source")
          "gh-pages", by simp, rfl⟩
    obtain ⟨e, he, hfe⟩ := hex
    refine ⟨e, ?_, hfe⟩
    simp only [build_ig, List.mem_cons]
    exact Or.inr (interleave_mem_left he)
  · intro e he
    simp only [build_ig, List.mem_cons] at he
    rcases he with rfl | he
    · rfl
    rcases mem_interleave he with hm | hm
    · rw [hmain] at hm
      rcases download_gh_pages_trace ig_source work_folder env.fs env.ghCloneOk
          with hd | hd
      · rw [hd] at hm
        simp only [List.cons_append, List.nil_append, List.mem_cons,
          List.not_mem_nil, or_false] at hm
        rcases hm with rfl | rfl | rfl | rfl <;> rfl
      · rw [hd] at hm
        simp only [List.cons_append, List.nil_append, List.mem_cons,
          List.not_mem_nil, or_false] at hm
        rcases hm with rfl | rfl | rfl <;> rfl
    · exact (fetchThreadEvent_classifiers
        (fetch_all_repos_trace_events urls work_folder e hm)).2.1

/-- The oracle of the C1 witness run: the probe finds the preview
document. -/
def c1Env : UIEnv :=
  ⟨fun _ => some 200, ⟨[]⟩, true, true, 0, 0⟩

/-- C1 witness: a concrete run whose probe succeeds. -/
theorem build_ig_prebuilt_path_witness :
    gh_pages_has_sitepreview "https://github.com/o/r" c1Env.head = true ∧
    ((build_ig "/w" "https://github.com/o/r" (fun _ => "u") c1Env []).2 =
        Outcome.prebuiltDeployReady ∧
      (∃ e ∈ (build_ig "/w" "https://github.com/o/r" (fun _ => "u") c1Env []).1,
        fetchesGhPages e = true) ∧
      (∀ e ∈ (build_ig "/w" "https://github.com/o/r" (fun _ => "u") c1Env []).1,
        isRunPublisher e = false)) :=
  ⟨by decide,
    build_ig_prebuilt_path "/w" "https://github.com/o/r" (fun _ => "u")
      c1Env [] (by decide)⟩

/-- C4: in any single `build_ig` run, under any interleaving, at most one
of the two deploy paths is enabled — the trace never holds more than one
deploy-enabling event, so `deploy_built` and `deploy_prebuilt` can never
both be invoked for the same run. -/
theorem build_ig_single_deploy (work_folder ig_source : String)
    (urls : String → String) (env : UIEnv) (sched : List Bool) :
    (build_ig work_folder ig_source urls env sched).1.countP isDeployEnable ≤
      1 := by
  have hfetch : (fetch_all_repos_trace urls work_folder).countP isDeployEnable =
      0 := by
    rw [List.countP_eq_zero]
    intro a ha
    simp [(fetchThreadEvent_classifiers
      (fetch_all_repos_trace_events urls work_folder a ha)).2.2.1]
  have hmain : (build_ig_main work_folder ig_source env).1.countP
      isDeployEnable ≤ 1 := by
    unfold build_ig_main
    rcases download_gh_pages_trace ig_source work_folder env.fs env.ghCloneOk
        with hd | hd <;>
      rcases run_publisher_trace ig_source work_folder env.exit1 env.exit2
          with hr | hr <;>
        by_cases h : gh_pages_has_sitepreview ig_source env.head <;>
          by_cases hj : env.jsonValid <;>
            by_cases hs : (run_publisher ig_source work_folder env.exit1
                env.exit2).2 <;>
              simp [h, hj, hs, hd, hr, download_publisher_jar,
                List.countP_append, List.countP_cons, isDeployEnable]
  calc (build_ig work_folder ig_source urls env sched).1.countP isDeployEnable
      = (build_ig_main work_folder ig_source env).1.countP isDeployEnable +
        (fetch_all_repos_trace urls work_folder).countP isDeployEnable := by
        simp only [build_ig]
        rw [List.countP_cons, countP_interleave]
        simp [isDeployEnable]
    _ ≤ 1 := by rw [hfetch]; simpa using hmain

/-- C5: on every run whose artifact probe reports no prebuilt artifact,
the orchestration steps of the trace — under any interleaving — are
exactly: the publisher tool download, then manifest validation, then (only
when validation succeeds) the first publisher invocation followed, when it
exits zero, by the second. -/
theorem build_ig_full_build_order (work_folder ig_source : String)
    (urls : String → String) (env : UIEnv) (sched : List Bool)
    (h : gh_pages_has_sitepreview ig_source env.head = false) :
    (build_ig work_folder ig_source urls env sched).1.filter isOrchStep =
      UEvent.downloadPublisherJar :: UEvent.validateJson ::
        (if env.jsonValid then
          UEvent.runPublisher (publisher_cmd1 ig_source) ::
            (if env.exit1 = 0 then
              [UEvent.runPublisher (publisher_cmd2 ig_source work_folder)]
            else [])
        else []) := by
  have hfetch : ∀ y ∈ fetch_all_repos_trace urls work_folder,
      isOrchStep y = false := fun y hy =>
    (fetchThreadEvent_classifiers
      (fetch_all_repos_trace_events urls work_folder y hy)).1
  have hstep : (build_ig work_folder ig_source urls env sched).1.filter
      isOrchStep = (build_ig_main work_folder ig_source env).1.filter
        isOrchStep := by
    simp only [build_ig]
    rw [List.filter_cons_of_neg (by simp [isOrchStep]),
      filter_interleave_of_right_none _ sched _ _ hfetch]
  rw [hstep]
  unfold build_ig_main
  rw [h]
  by_cases hj : env.jsonValid
  · by_cases h1 : env.exit1 = 0
    · by_cases h2 : env.exit2 = 0 <;>
        simp [hj, h1, h2, run_publisher, download_publisher_jar,
          List.filter_append, isOrchStep]
    · simp [hj, h1, run_publisher, download_publisher_jar,
        List.filter_append, isOrchStep]
  · simp [hj, download_publisher_jar, isOrchStep]

/-- C5 witness: a concrete run whose probe fails (unreachable preview
URL), with a valid manifest and a successful first command. -/
theorem build_ig_full_build_order_witness :
    gh_pages_has_sitepreview "https://github.com/o/r" c3Env.head = false ∧
    (build_ig "/w" "https://github.com/o/r" (fun _ => "u") c3Env []).1.filter
        isOrchStep =
      UEvent.downloadPublisherJar :: UEvent.validateJson ::
        (if c3Env.jsonValid then
          UEvent.runPublisher (publisher_cmd1 "https://github.com/o/r") ::
            (if c3Env.exit1 = 0 then
              [UEvent.runPublisher (publisher_cmd2 "https://github.com/o/r" "/w")]
            else [])
        else []) :=
  ⟨by decide,
    build_ig_full_build_order "/w" "https://github.com/o/r" (fun _ => "u")
      c3Env [] (by decide)⟩

end IgReleaser
